import Mathlib

/-!
Shallow embedding of the execution-orchestration frontend of the
databricks-assessment-tool repository, centred on
`src/databricks_app/frontend/src/components/ExecutionStep.jsx`
(the `handleExecute`, `handleWebSocketMessage` and `checkExistingReports`
functions and the rendering guards of the execution controls), plus the
result-listing consumer `loadReportsList` of the ResultsStep component.

JavaScript arrays become `List`, objects become structures, the React
state touched by the claims (`executing`, `executionSteps`, `error`,
`hasExistingReports`) becomes an explicit `ClientState` record, and each
setState-based handler becomes a pure state-transition function.
-/

namespace DBAssess

/-- One entry of `executionSteps` as built by `handleExecute`
(`{ name, status, message, logs }`). -/
structure Step where
  name : String
  status : String
  message : String
  logs : List String
  deriving Repr, DecidableEq

/-- A message received on the `ws/execution` socket, as consumed by
`handleWebSocketMessage`: `{type, step, status, message, log}`.  The
`log` field is optional in the JSON payload (the code tests it for
truthiness), hence `Option String`. -/
structure WsEvent where
  type : String
  step : String
  status : String
  message : String
  log : Option String
  deriving Repr, DecidableEq

/-- JavaScript truthiness of an optional string: `undefined` and the
empty string are falsy. -/
def jsTruthy : Option String → Bool
  | none => false
  | some s => s ≠ ""

/-- The React state of ExecutionStep touched by the claims. -/
structure ClientState where
  executing : Bool
  executionSteps : List Step
  error : Option String
  hasExistingReports : Bool
  deriving Repr, DecidableEq

/-- The step-lookup predicate used by both branches of
`handleWebSocketMessage` (lines 107-110 and 127-130):
`(data.step === 'terraform' && step.name === 'Terraform Export') ||
 (data.step === 'agents' && step.name === 'AI Agents Analysis')`. -/
def stepMatches (evStep : String) (st : Step) : Bool :=
  (evStep == "terraform" && st.name == "Terraform Export") ||
  (evStep == "agents" && st.name == "AI Agents Analysis")

/-- `findIndex` followed by an assignment at the found index: replace the
first element satisfying `p` by its image under `f`; when no element
matches (`findIndex` returns -1) the list is returned unchanged. -/
def updateMatched (p : Step → Bool) (f : Step → Step) : List Step → List Step
  | [] => []
  | st :: rest => if p st then f st :: rest else st :: updateMatched p f rest

/-- The update applied to the matched step on a `status` event
(lines 113-118): overwrite `status` and `message` with the fields of the
event, and append `data.log` to `logs` when it is truthy. -/
def applyStatus (ev : WsEvent) (st : Step) : Step :=
  { st with
    status := ev.status
    message := ev.message
    logs := if jsTruthy ev.log then st.logs ++ [ev.log.getD ""] else st.logs }

/-- The update applied to the matched step on a `log` event
(lines 133-136): append `data.message` to `logs`. -/
def applyLog (ev : WsEvent) (st : Step) : Step :=
  { st with logs := st.logs ++ [ev.message] }

/-- `handleWebSocketMessage` (ExecutionStep.jsx lines 102-154) as a pure
transition on the client state. -/
def handleWebSocketMessage (ev : WsEvent) (s : ClientState) : ClientState :=
  if ev.type == "status" then
    { s with executionSteps :=
        updateMatched (stepMatches ev.step) (applyStatus ev) s.executionSteps }
  else if ev.type == "log" then
    { s with executionSteps :=
        updateMatched (stepMatches ev.step) (applyLog ev) s.executionSteps }
  else if ev.type == "completed" then
    { s with executing := false, hasExistingReports := true }
  else if ev.type == "error" then
    { s with executing := false, error := some ev.message }
  else if ev.type == "stopped" then
    { s with executing := false, error := some "Execution stopped by user." }
  else s

/-- Folding a whole event sequence through `handleWebSocketMessage`. -/
def processEvents (es : List WsEvent) (s : ClientState) : ClientState :=
  es.foldl (fun acc e => handleWebSocketMessage e acc) s

/-- The `options` state object of ExecutionStep. -/
structure Options where
  runTerraform : Bool
  runAgents : Bool
  terraformServices : List String
  terraformListing : List String
  terraformDebug : Bool
  selectedAgents : List String
  reportLanguage : String
  deriving Repr, DecidableEq

/-- Step-list construction in `handleExecute` (lines 163-172): push the
Terraform Export step when `runTerraform`, then the AI Agents Analysis
step when `runAgents`, both pending with empty message and logs. -/
def buildSteps (o : Options) : List Step :=
  (if o.runTerraform then [⟨"Terraform Export", "pending", "", []⟩] else []) ++
  (if o.runAgents then [⟨"AI Agents Analysis", "pending", "", []⟩] else [])

/-- Agent-list construction in `handleExecute` (lines 183-186): keep the
selection as is when it already contains `report_generator`, otherwise
append `report_generator`. -/
def agentsToRun (o : Options) : List String :=
  if o.selectedAgents.contains "report_generator" then o.selectedAgents
  else o.selectedAgents ++ ["report_generator"]

/-- The body POSTed to `api/execute/start` (lines 188-196). -/
structure StartRequest where
  run_terraform : Bool
  run_agents : Bool
  terraform_services : String
  terraform_listing : String
  terraform_debug : Bool
  selected_agents : String
  report_language : String
  deriving Repr, DecidableEq

/-- Serialisation of the options into the start request (lines 188-196). -/
def buildStartRequest (o : Options) : StartRequest :=
  { run_terraform := o.runTerraform
    run_agents := o.runAgents
    terraform_services := String.intercalate "," o.terraformServices
    terraform_listing := String.intercalate "," o.terraformListing
    terraform_debug := o.terraformDebug
    selected_agents := String.intercalate "," (agentsToRun o)
    report_language := o.reportLanguage }

/-- The synchronous state updates at the top of `handleExecute`
(lines 157-172): set executing, clear the error, reset
`hasExistingReports`, and install the freshly built step list. -/
def handleExecuteSetup (o : Options) (s : ClientState) : ClientState :=
  { s with
    executing := true
    error := none
    hasExistingReports := false
    executionSteps := buildSteps o }

/-- The `catch` handler of `handleExecute` (lines 197-201): surface
`error.response?.data?.detail || 'Failed to start execution'` and leave
the executing state.  `executionSteps` is not touched. -/
def handleExecuteCatch (detail : Option String) (s : ClientState) : ClientState :=
  { s with
    error := some (if jsTruthy detail then detail.getD "" else "Failed to start execution")
    executing := false }

/-- The `disabled` guard of the main execution button (line 608):
`executing || (!options.runTerraform && !options.runAgents)`. -/
def startButtonDisabled (o : Options) (executing : Bool) : Bool :=
  executing || (!o.runTerraform && !o.runAgents)

/-- The `allCompleted` rendering flag (lines 243-245):
`(executionSteps.length > 0 && every step completed) || hasExistingReports`. -/
def allCompleted (s : ClientState) : Bool :=
  (decide (0 < s.executionSteps.length) &&
    s.executionSteps.all (fun st => st.status == "completed")) ||
  s.hasExistingReports

/-- The Run Again button (lines 596-604) is rendered exactly when
`allCompleted` holds, is never disabled, and its click handler is
`handleExecute`, which POSTs `buildStartRequest` of the current options.
Result: the request issued by clicking it, when available. -/
def runAgainIssues (s : ClientState) (o : Options) : Option StartRequest :=
  if allCompleted s then some (buildStartRequest o) else none

/-- The main button (lines 605-612) acts as a start control only when
`allCompleted` is false (otherwise its click handler is `onNext`), and
only when not disabled. Result: the start request it can issue. -/
def mainButtonIssues (s : ClientState) (o : Options) : Option StartRequest :=
  if !allCompleted s && !startButtonDisabled o s.executing
  then some (buildStartRequest o) else none

/-- One entry of the `api/results/list` response
(`{agent, filename, exists, ...}`); the source field `exists` is named
`fileExists` here. -/
structure ReportEntry where
  agent : String
  filename : String
  fileExists : Bool
  deriving Repr, DecidableEq

/-- `checkExistingReports` (ExecutionStep.jsx lines 54-68): filter the
response on the `exists` flag and set `hasExistingReports` to true when
the filtered list is non-empty; otherwise the flag keeps its previous
value. -/
def checkExistingReports (reports : List ReportEntry) (prev : Bool) : Bool :=
  if 0 < (reports.filter (fun r => r.fileExists)).length then true else prev

/-- `loadReportsList` (ResultsStep, src/unnamed/part_002 lines 39-59):
the reports shown by the results view are the entries of the listing
response whose `exists` flag is set. -/
def availableReports (reports : List ReportEntry) : List ReportEntry :=
  reports.filter (fun r => r.fileExists)

/-- The first timer installed by `handleExecute` (lines 178-180) computes
`Math.floor((Date.now() - Date.now()) / 1000)` on each tick; `t1` is the
first `Date.now()` call (left operand), `t2` the second.  `Int.fdiv`
is floor division, matching `Math.floor` of the quotient. -/
def buggyTickElapsed (t1 t2 : Int) : Int := (t1 - t2).fdiv 1000

/-- The projection used by the effect at lines 205-212:
`Math.floor((Date.now() - startTime) / 1000)`. -/
def elapsedProjection (now startTime : Int) : Int := (now - startTime).fdiv 1000

/-! ## Helper lemmas about `updateMatched` -/

theorem updateMatched_eq_of_forall_false {p : Step → Bool} {f : Step → Step}
    {l : List Step} (h : ∀ st ∈ l, p st = false) : updateMatched p f l = l := by
  induction l with
  | nil => rfl
  | cons st rest ih =>
    have hst : ¬ (p st = true) := by
      simp [h st (List.mem_cons_self st rest)]
    rw [updateMatched, if_neg hst]
    exact congrArg (st :: ·) (ih fun x hx => h x (List.mem_cons_of_mem st hx))

theorem updateMatched_mem {p : Step → Bool} {f : Step → Step}
    {l : List Step} {x : Step} (hx : x ∈ updateMatched p f l) :
    x ∈ l ∨ ∃ y ∈ l, x = f y := by
  induction l with
  | nil => rw [updateMatched] at hx; exact absurd hx (List.not_mem_nil x)
  | cons st rest ih =>
    by_cases h : p st
    · rw [updateMatched, if_pos h] at hx
      rcases List.mem_cons.mp hx with rfl | hx'
      · exact Or.inr ⟨st, List.mem_cons_self st rest, rfl⟩
      · exact Or.inl (List.mem_cons_of_mem st hx')
    · rw [updateMatched, if_neg h] at hx
      rcases List.mem_cons.mp hx with rfl | hx'
      · exact Or.inl (List.mem_cons_self x rest)
      · rcases ih hx' with h' | ⟨y, hy, hxy⟩
        · exact Or.inl (List.mem_cons_of_mem st h')
        · exact Or.inr ⟨y, List.mem_cons_of_mem st hy, hxy⟩

theorem updateMatched_exists_updated {p : Step → Bool} {f : Step → Step}
    {l : List Step} (h : ∃ y ∈ l, p y = true) :
    ∃ y ∈ l, p y = true ∧ f y ∈ updateMatched p f l := by
  induction l with
  | nil => rcases h with ⟨y, hy, _⟩; exact absurd hy (List.not_mem_nil y)
  | cons st rest ih =>
    by_cases hst : p st
    · refine ⟨st, List.mem_cons_self st rest, hst, ?_⟩
      rw [updateMatched, if_pos hst]
      exact List.mem_cons_self (f st) rest
    · rcases h with ⟨y, hy, hpy⟩
      rcases List.mem_cons.mp hy with rfl | hy'
      · exact absurd hpy hst
      · rcases ih ⟨y, hy', hpy⟩ with ⟨z, hz, hpz, hfz⟩
        refine ⟨z, List.mem_cons_of_mem st hz, hpz, ?_⟩
        rw [updateMatched, if_neg hst]
        exact List.mem_cons_of_mem st hfz

/-! ## Claim C1 -/

/-- A reachable agent selection: starting from the default
`[terraform_reader, ucx_analyst, report_generator]`, unchecking and
re-checking the Terraform Analysis phase yields
`[ucx_analyst, report_generator, terraform_reader]` (removal filters,
re-addition appends at the end, lines 465-475). -/
def c1Options : Options :=
  { runTerraform := true
    runAgents := true
    terraformServices := ["groups", "users", "compute", "jobs", "notebooks", "repos",
      "access", "secrets", "storage", "sql-endpoints", "dashboards"]
    terraformListing := ["compute", "jobs", "notebooks", "sql-endpoints"]
    terraformDebug := false
    selectedAgents := ["ucx_analyst", "report_generator", "terraform_reader"]
    reportLanguage := "pt-BR" }

/-- C1, counterexample: with analysis enabled and the selection
`[ucx_analyst, report_generator, terraform_reader]` (which contains
`report_generator`, so `handleExecute` keeps it unchanged), the last
element of `agentsToRun` is `terraform_reader`, not `report_generator`. -/
theorem C1_counterexample :
    c1Options.runAgents = true ∧
    (agentsToRun c1Options).getLast? = some "terraform_reader" ∧
    some "terraform_reader" ≠ some "report_generator" := by
  refine ⟨rfl, rfl, by decide⟩

/-- C1, amended: `agentsToRun` always contains `report_generator`, and
whenever the selection omits `report_generator` it is appended as the
last element of the list sent as `selected_agents`. -/
theorem C1_report_generator_always_runs (o : Options) :
    "report_generator" ∈ agentsToRun o ∧
    ("report_generator" ∉ o.selectedAgents →
      (agentsToRun o).getLast? = some "report_generator") := by
  constructor
  · unfold agentsToRun
    by_cases h : o.selectedAgents.contains "report_generator"
    · rw [if_pos h]
      exact List.mem_of_elem_eq_true h
    · rw [if_neg h]
      exact List.mem_append_right _ (List.mem_singleton.mpr rfl)
  · intro h
    have hc : ¬ (o.selectedAgents.contains "report_generator" = true) := by
      intro hc
      exact h (List.mem_of_elem_eq_true hc)
    unfold agentsToRun
    rw [if_neg hc]
    exact List.getLast?_concat _

/-- Witness for C1 at the selection `[terraform_reader]`. -/
theorem C1_witness :
    "report_generator" ∈ agentsToRun { c1Options with selectedAgents := ["terraform_reader"] } ∧
    (agentsToRun { c1Options with selectedAgents := ["terraform_reader"] }).getLast? =
      some "report_generator" :=
  ⟨(C1_report_generator_always_runs _).1,
   (C1_report_generator_always_runs _).2 (by decide)⟩

/-! ## Claim C3 -/

/-- C3: `handleExecute` initialises `executionSteps` with the Terraform
Export step exactly when `runTerraform` is set, the AI Agents Analysis
step exactly when `runAgents` is set, in that order and with no other
steps (the name sequence is a sublist of the full two-step sequence),
each created pending with empty message and logs. -/
theorem C3_buildSteps_shape (o : Options) :
    ("Terraform Export" ∈ (buildSteps o).map Step.name ↔ o.runTerraform = true) ∧
    ("AI Agents Analysis" ∈ (buildSteps o).map Step.name ↔ o.runAgents = true) ∧
    List.Sublist ((buildSteps o).map Step.name) ["Terraform Export", "AI Agents Analysis"] ∧
    ∀ st ∈ buildSteps o, st.status = "pending" ∧ st.message = "" ∧ st.logs = [] := by
  have hb : buildSteps o =
      (if o.runTerraform then [⟨"Terraform Export", "pending", "", []⟩] else []) ++
      (if o.runAgents then [⟨"AI Agents Analysis", "pending", "", []⟩] else []) := rfl
  cases hrt : o.runTerraform <;> cases hra : o.runAgents <;>
    rw [hb, hrt, hra] <;> refine ⟨by simp [hrt], by simp [hra], by decide, by decide⟩

/-- Witness for C3 at the default options (both stages enabled). -/
theorem C3_witness :
    ("Terraform Export" ∈ (buildSteps c1Options).map Step.name ↔ c1Options.runTerraform = true) ∧
    Step.status ⟨"Terraform Export", "pending", "", []⟩ = "pending" := by
  refine ⟨(C3_buildSteps_shape c1Options).1, ?_⟩
  have h := (C3_buildSteps_shape c1Options).2.2.2 ⟨"Terraform Export", "pending", "", []⟩ (by decide)
  exact h.1

/-! ## Claim C5 -/

/-- C5: the timer installed by `handleExecute` computes the elapsed
seconds from two immediately successive readings of the clock instead of
from the session start.  At a tick 5 seconds after start (both clock
reads returning 5000, start time 0) the code stores 0 while the claimed
pure projection of now minus startedAt is 5. -/
theorem C5_elapsed_tick_bug :
    buggyTickElapsed 5000 5000 = 0 ∧
    elapsedProjection 5000 0 = 5 ∧
    buggyTickElapsed 5000 5000 ≠ elapsedProjection 5000 0 := by
  refine ⟨by decide, by decide, by decide⟩

/-! ## Claim C2 -/

/-- Ordering of statuses in the claimed progression
pending to running to completed-or-error. -/
def statusRank : String → Nat
  | "pending" => 0
  | "running" => 1
  | "completed" => 2
  | "error" => 2
  | _ => 0

/-- A client state whose single step has already completed. -/
def c2State : ClientState :=
  { executing := true
    executionSteps := [⟨"Terraform Export", "completed", "Done", []⟩]
    error := none
    hasExistingReports := false }

/-- A status event carrying an earlier status for that step. -/
def c2Event : WsEvent := ⟨"status", "terraform", "running", "Exporting", none⟩

/-- C2, counterexample: `handleWebSocketMessage` writes the status field
of a status event verbatim, so a step already completed regresses to
running when such an event arrives. -/
theorem C2_counterexample :
    c2State.executionSteps.map Step.status = ["completed"] ∧
    (handleWebSocketMessage c2Event c2State).executionSteps.map Step.status = ["running"] ∧
    statusRank "running" < statusRank "completed" := by
  refine ⟨rfl, rfl, by decide⟩

/-- C2, amended: the client applies status events verbatim: when some
step matches the event, a step of the updated list carries exactly the
status of the event, and every step of the updated list carries either
the status of the event or the status it already had — so the status
progression is forward-only exactly when the delivered event stream is,
and is not enforced by the client. -/
theorem C2_status_applied_verbatim (s : ClientState) (ev : WsEvent)
    (h : ev.type = "status") :
    ((∃ st ∈ s.executionSteps, stepMatches ev.step st = true) →
      ∃ st ∈ (handleWebSocketMessage ev s).executionSteps, st.status = ev.status) ∧
    (∀ st ∈ (handleWebSocketMessage ev s).executionSteps,
      st.status = ev.status ∨ ∃ st0 ∈ s.executionSteps, st.status = st0.status) := by
  have hsteps : (handleWebSocketMessage ev s).executionSteps =
      updateMatched (stepMatches ev.step) (applyStatus ev) s.executionSteps := by
    simp [handleWebSocketMessage, h]
  constructor
  · intro hex
    rcases updateMatched_exists_updated (f := applyStatus ev) hex with ⟨y, hy, hpy, hfy⟩
    exact ⟨applyStatus ev y, hsteps ▸ hfy, rfl⟩
  · intro st hst
    rw [hsteps] at hst
    rcases updateMatched_mem hst with hold | ⟨y, hy, rfl⟩
    · exact Or.inr ⟨st, hold, rfl⟩
    · exact Or.inl rfl

/-- Witness for C2 at a pending step receiving a running status. -/
theorem C2_witness :
    ∃ st ∈ (handleWebSocketMessage ⟨"status", "terraform", "running", "Starting", none⟩
      { executing := true
        executionSteps := [⟨"Terraform Export", "pending", "", []⟩]
        error := none
        hasExistingReports := false }).executionSteps, st.status = "running" :=
  (C2_status_applied_verbatim _ _ rfl).1 (by decide)

/-! ## Claim C7 -/

/-- C7: every terminal event clears `executing`; `completed` additionally
marks reports as existing, `error` surfaces the event message, and
`stopped` surfaces the fixed user-cancellation message. -/
theorem C7_terminal_events (s : ClientState) (ev : WsEvent) :
    (ev.type = "completed" →
      handleWebSocketMessage ev s =
        { s with executing := false, hasExistingReports := true }) ∧
    (ev.type = "error" →
      handleWebSocketMessage ev s =
        { s with executing := false, error := some ev.message }) ∧
    (ev.type = "stopped" →
      handleWebSocketMessage ev s =
        { s with executing := false, error := some "Execution stopped by user." }) := by
  refine ⟨fun h => ?_, fun h => ?_, fun h => ?_⟩ <;> simp [handleWebSocketMessage, h]

/-- Witness for C7: a concrete stopped event on a concrete state. -/
theorem C7_witness :
    handleWebSocketMessage ⟨"stopped", "", "", "", none⟩
      { executing := true, executionSteps := [], error := none, hasExistingReports := false } =
    { executing := false, executionSteps := [], error := some "Execution stopped by user.",
      hasExistingReports := false } :=
  (C7_terminal_events _ _).2.2 rfl

/-! ## Claim C9 -/

/-- C9: a status or log event whose step field is neither `terraform`
nor `agents` matches no entry of `executionSteps` (whatever the step
names are), so the step list is returned unchanged. -/
theorem C9_unknown_step_frame (s : ClientState) (ev : WsEvent)
    (h1 : ev.step ≠ "terraform") (h2 : ev.step ≠ "agents")
    (h3 : ev.type = "status" ∨ ev.type = "log") :
    (handleWebSocketMessage ev s).executionSteps = s.executionSteps := by
  have hall : ∀ st ∈ s.executionSteps, stepMatches ev.step st = false := by
    intro st _
    have e1 : (ev.step == "terraform") = false := beq_eq_false_iff_ne.mpr h1
    have e2 : (ev.step == "agents") = false := beq_eq_false_iff_ne.mpr h2
    simp [stepMatches, e1, e2]
  rcases h3 with h | h <;>
    simp [handleWebSocketMessage, h, updateMatched_eq_of_forall_false hall]

/-- Witness for C9: a log event for an unknown step leaves a concrete
step list untouched. -/
theorem C9_witness :
    (handleWebSocketMessage ⟨"log", "upload", "", "a line", none⟩
      { executing := true
        executionSteps := [⟨"Terraform Export", "running", "", []⟩]
        error := none
        hasExistingReports := false }).executionSteps =
    [⟨"Terraform Export", "running", "", []⟩] :=
  C9_unknown_step_frame _ _ (by decide) (by decide) (Or.inr rfl)

/-! ## Claim C6 -/

theorem updateMatched_get? {p : Step → Bool} {f : Step → Step} :
    ∀ (l : List Step) (i : Nat),
      (updateMatched p f l).get? i = l.get? i ∨
      ∃ y, l.get? i = some y ∧ (updateMatched p f l).get? i = some (f y)
  | [], _ => Or.inl rfl
  | st :: rest, i => by
    by_cases h : p st
    · rw [updateMatched, if_pos h]
      cases i with
      | zero => exact Or.inr ⟨st, rfl, rfl⟩
      | succ n => exact Or.inl rfl
    · rw [updateMatched, if_neg h]
      cases i with
      | zero => exact Or.inl rfl
      | succ n =>
        rw [List.get?_cons_succ, List.get?_cons_succ]
        exact updateMatched_get? rest n

theorem processEvents_log_fifo (es : List WsEvent) :
    ∀ (s : ClientState) (tgt : String) (st : Step) (rest : List Step),
      (∀ e ∈ es, e.type = "log" ∧ e.step = tgt) →
      stepMatches tgt st = true →
      s.executionSteps = st :: rest →
      (processEvents es s).executionSteps =
        { st with logs := st.logs ++ es.map WsEvent.message } :: rest := by
  induction es with
  | nil =>
    intro s tgt st rest _ _ hs
    simpa [processEvents] using hs
  | cons e es ih =>
    intro s tgt st rest hall hm hs
    have he := hall e (List.mem_cons_self e es)
    have htail : ∀ x ∈ es, x.type = "log" ∧ x.step = tgt :=
      fun x hx => hall x (List.mem_cons_of_mem e hx)
    have hstep : handleWebSocketMessage e s =
        { s with executionSteps := applyLog e st :: rest } := by
      rw [show handleWebSocketMessage e s =
          { s with executionSteps :=
              updateMatched (stepMatches e.step) (applyLog e) s.executionSteps } by
        simp [handleWebSocketMessage, he.1]]
      rw [hs, he.2, updateMatched, if_pos hm]
    have hcons : processEvents (e :: es) s = processEvents es (handleWebSocketMessage e s) := rfl
    rw [hcons, hstep, ih _ tgt (applyLog e st) rest htail hm rfl]
    simp [applyLog]

/-- C6: per-step logs are append-only and FIFO.  A log event leaves every
position of `executionSteps` either unchanged or with exactly one line,
the event message, appended at the end of its logs (so stored lines are
never modified, removed or reordered); when some step matches the event,
the appended version of a matching step is in the updated list; and
folding a sequence of log events for one step appends exactly its
messages, in arrival order, to that step. -/
theorem C6_logs_append_only_fifo (s : ClientState) :
    (∀ ev : WsEvent, ev.type = "log" →
      (∀ i : Nat,
        (handleWebSocketMessage ev s).executionSteps.get? i = s.executionSteps.get? i ∨
        ∃ st, s.executionSteps.get? i = some st ∧
          (handleWebSocketMessage ev s).executionSteps.get? i =
            some { st with logs := st.logs ++ [ev.message] }) ∧
      ((∃ st ∈ s.executionSteps, stepMatches ev.step st = true) →
        ∃ st ∈ s.executionSteps, stepMatches ev.step st = true ∧
          { st with logs := st.logs ++ [ev.message] } ∈
            (handleWebSocketMessage ev s).executionSteps)) ∧
    (∀ (es : List WsEvent) (tgt : String) (st : Step) (rest : List Step),
      (∀ e ∈ es, e.type = "log" ∧ e.step = tgt) →
      stepMatches tgt st = true →
      s.executionSteps = st :: rest →
      (processEvents es s).executionSteps =
        { st with logs := st.logs ++ es.map WsEvent.message } :: rest) := by
  constructor
  · intro ev h
    have hsteps : (handleWebSocketMessage ev s).executionSteps =
        updateMatched (stepMatches ev.step) (applyLog ev) s.executionSteps := by
      simp [handleWebSocketMessage, h]
    constructor
    · intro i
      rw [hsteps]
      exact updateMatched_get? s.executionSteps i
    · intro hex
      rcases updateMatched_exists_updated (f := applyLog ev) hex with ⟨y, hy, hpy, hfy⟩
      exact ⟨y, hy, hpy, hsteps ▸ hfy⟩
  · exact fun es tgt st rest hall hm hs => processEvents_log_fifo es s tgt st rest hall hm hs

/-- Witness for C6: two log lines arriving for the Terraform step are
appended after the existing line, in arrival order. -/
theorem C6_witness :
    (processEvents
      [⟨"log", "terraform", "", "line one", none⟩, ⟨"log", "terraform", "", "line two", none⟩]
      { executing := true
        executionSteps := [⟨"Terraform Export", "running", "", ["line zero"]⟩]
        error := none
        hasExistingReports := false }).executionSteps =
    [⟨"Terraform Export", "running", "", ["line zero", "line one", "line two"]⟩] := by
  have h := (C6_logs_append_only_fifo
    { executing := true
      executionSteps := [⟨"Terraform Export", "running", "", ["line zero"]⟩]
      error := none
      hasExistingReports := false }).2
    [⟨"log", "terraform", "", "line one", none⟩, ⟨"log", "terraform", "", "line two", none⟩]
    "terraform" ⟨"Terraform Export", "running", "", ["line zero"]⟩ []
    (by decide) (by decide) rfl
  simpa using h

/-! ## Claim C4 -/

/-- Session states of the orchestrator state machine (spec section 4.3). -/
inductive SessionState where
  | Idle
  | Running
  | Completed
  | Failed
  | Cancelled
  deriving Repr, DecidableEq

/-- One StepRecord of a Session (spec section 3). -/
structure StepRecord where
  name : String
  status : String
  message : String
  logLines : List String
  deriving Repr, DecidableEq

/-- One execution Session (spec section 3). -/
structure Session where
  state : SessionState
  steps : List StepRecord
  deriving Repr, DecidableEq

/-- Modelled from the spec: the backend orchestrator is not under src/
(only the frontend is present), so Session creation follows spec
section 4.3: the new Session enters Running with one Pending StepRecord
per unit (the export unit when enabled, then the selected agent units). -/
def newSession (req : StartRequest) : Session :=
  { state := SessionState.Running
    steps :=
      ((if req.run_terraform then ["export"] else []) ++
       (if req.run_agents then req.selected_agents.splitOn "," else [])).map
        (fun n => ⟨n, "Pending", "", []⟩) }

/-- Modelled from the spec: the start endpoint of the backend
orchestrator is not under src/.  Per spec sections 4.3 and 6, start
while the registered Session is Running fails with AlreadyRunningError
and performs no mutation; otherwise a new Running Session is created and
registered.  The pair returned is the response and the registry after
the call. -/
def orchestratorStart (reg : Option Session) (req : StartRequest) :
    Except String Session × Option Session :=
  match reg with
  | some sess =>
    if sess.state = SessionState.Running then (Except.error "AlreadyRunningError", some sess)
    else (Except.ok (newSession req), some (newSession req))
  | none => (Except.ok (newSession req), some (newSession req))

/-- C4: start during a Running session fails with AlreadyRunningError
and leaves the registered Session unchanged; on the client the start
control is disabled whenever `executing` is true; and the catch handler
of a failed start request surfaces an error and clears `executing`
without touching the step list (the server detail is shown verbatim when
present and non-empty). -/
theorem C4_already_running_rejected (sess : Session) (req : StartRequest)
    (hrun : sess.state = SessionState.Running)
    (o : Options) (s : ClientState) (d : Option String) :
    orchestratorStart (some sess) req = (Except.error "AlreadyRunningError", some sess) ∧
    startButtonDisabled o true = true ∧
    (handleExecuteCatch d s).executionSteps = s.executionSteps ∧
    (handleExecuteCatch d s).executing = false ∧
    ((handleExecuteCatch d s).error).isSome = true ∧
    (∀ detail : String, detail ≠ "" →
      (handleExecuteCatch (some detail) s).error = some detail) := by
  refine ⟨by simp [orchestratorStart, hrun], by simp [startButtonDisabled], rfl, rfl, rfl, ?_⟩
  intro detail hd
  simp [handleExecuteCatch, jsTruthy, hd]

/-- Witness for C4 at a concrete Running session and failed request. -/
theorem C4_witness :
    orchestratorStart (some ⟨SessionState.Running, []⟩) (buildStartRequest c1Options) =
      (Except.error "AlreadyRunningError", some ⟨SessionState.Running, []⟩) ∧
    (handleExecuteCatch (some "boom")
      { executing := true, executionSteps := [], error := none,
        hasExistingReports := false }).error = some "boom" := by
  have h := C4_already_running_rejected ⟨SessionState.Running, []⟩ (buildStartRequest c1Options)
    rfl c1Options
    { executing := true, executionSteps := [], error := none, hasExistingReports := false }
    (some "boom")
  exact ⟨h.1, h.2.2.2.2.2 "boom" (by decide)⟩

/-! ## Claim C8 -/

/-- C8: the existing-reports flag and the results listing are derived
purely from the listing response: starting from the initial false flag,
`checkExistingReports` yields true exactly when some entry of the
response has its exists flag set; the results view lists a report
exactly under the same condition; and for any prior flag value the
outcome depends only on the response and that prior value, as the
disjunction of the two. -/
theorem C8_reports_from_listing (resp : List ReportEntry) :
    (checkExistingReports resp false = true ↔ ∃ r ∈ resp, r.fileExists = true) ∧
    (availableReports resp ≠ [] ↔ ∃ r ∈ resp, r.fileExists = true) ∧
    (∀ prev : Bool, checkExistingReports resp prev =
      (resp.any (fun r => r.fileExists) || prev)) := by
  have hany : ∀ prev : Bool, checkExistingReports resp prev =
      (resp.any (fun r => r.fileExists) || prev) := by
    intro prev
    unfold checkExistingReports
    by_cases h : 0 < (resp.filter (fun r => r.fileExists)).length
    · rw [if_pos h]
      have hne : resp.filter (fun r => r.fileExists) ≠ [] := by
        intro hnil
        rw [hnil] at h
        exact Nat.lt_irrefl 0 h
      rcases List.exists_mem_of_ne_nil _ hne with ⟨x, hx⟩
      rcases List.mem_filter.mp hx with ⟨hmem, hp⟩
      have : resp.any (fun r => r.fileExists) = true :=
        List.any_eq_true.mpr ⟨x, hmem, hp⟩
      rw [this, Bool.true_or]
    · rw [if_neg h]
      have : resp.any (fun r => r.fileExists) = false := by
        by_contra hc
        rcases List.any_eq_true.mp (Bool.of_not_eq_false hc) with ⟨x, hmem, hp⟩
        have hin : x ∈ resp.filter (fun r => r.fileExists) :=
          List.mem_filter.mpr ⟨hmem, hp⟩
        exact h (List.length_pos.mpr (List.ne_nil_of_mem hin))
      rw [this, Bool.false_or]
  refine ⟨?_, ?_, hany⟩
  · rw [hany false, Bool.or_false]
    exact List.any_eq_true
  · constructor
    · intro hne
      rcases List.exists_mem_of_ne_nil _ hne with ⟨x, hx⟩
      rcases List.mem_filter.mp hx with ⟨hmem, hp⟩
      exact ⟨x, hmem, hp⟩
    · rintro ⟨x, hmem, hp⟩
      exact List.ne_nil_of_mem (List.mem_filter.mpr ⟨hmem, hp⟩)

/-! ## Claim C10 -/

/-- A client state in which prior reports were discovered on mount
(`hasExistingReports` true) and nothing is executing: the Run Again
control is rendered and enabled, and the stage checkboxes are editable. -/
def c10State : ClientState :=
  { executing := false, executionSteps := [], error := none, hasExistingReports := true }

/-- Options with both stages disabled (both checkboxes unchecked). -/
def c10Options : Options :=
  { c1Options with runTerraform := false, runAgents := false }

/-- C10, counterexample: with both stages unchecked and existing reports
discovered, the Run Again control is available while not executing and
clicking it issues a start request in which no stage is enabled — an
empty RunRequest is reachable from the interface. -/
theorem C10_counterexample :
    c10State.executing = false ∧
    (runAgainIssues c10State c10Options).map
      (fun r => (r.run_terraform, r.run_agents)) = some (false, false) := by
  exact ⟨rfl, rfl⟩

/-- C10, amended: the main start control is disabled whenever
`executing` is true or both stages are disabled, and any start request
it issues has a stage enabled and is issued while not executing; the
unreachability of an empty request from the whole interface does not
hold, because the Run Again control bypasses the guard. -/
theorem C10_main_start_guard (o : Options) (s : ClientState) :
    (s.executing = true → startButtonDisabled o s.executing = true) ∧
    (o.runTerraform = false → o.runAgents = false →
      startButtonDisabled o s.executing = true) ∧
    (∀ r : StartRequest, mainButtonIssues s o = some r →
      (r.run_terraform || r.run_agents) = true ∧ s.executing = false) := by
  refine ⟨fun h => by simp [startButtonDisabled, h],
          fun h1 h2 => by simp [startButtonDisabled, h1, h2], ?_⟩
  intro r hr
  unfold mainButtonIssues at hr
  by_cases hc : (!allCompleted s && !startButtonDisabled o s.executing) = true
  · rw [if_pos hc] at hr
    have hreq : buildStartRequest o = r := Option.some.inj hr
    have hdis : startButtonDisabled o s.executing = false := by
      revert hc
      cases allCompleted s <;> cases hd : startButtonDisabled o s.executing <;> simp
    have hex : s.executing = false := by
      revert hdis
      unfold startButtonDisabled
      cases s.executing <;> simp
    have hst : (o.runTerraform || o.runAgents) = true := by
      revert hdis
      unfold startButtonDisabled
      cases o.runTerraform <;> cases o.runAgents <;> cases s.executing <;> simp
    refine ⟨?_, hex⟩
    rw [← hreq]
    simpa [buildStartRequest] using hst
  · rw [if_neg hc] at hr
    exact absurd hr (by simp)

/-- Witness for C10 at concrete options with only the export stage
enabled and a concrete non-executing state. -/
theorem C10_witness :
    ((buildStartRequest { c1Options with runAgents := false }).run_terraform ||
      (buildStartRequest { c1Options with runAgents := false }).run_agents) = true ∧
    ClientState.executing
      { executing := false, executionSteps := [], error := none,
        hasExistingReports := false } = false :=
  (C10_main_start_guard { c1Options with runAgents := false }
    { executing := false, executionSteps := [], error := none, hasExistingReports := false }).2.2
    (buildStartRequest { c1Options with runAgents := false }) (by decide)

end DBAssess
